import Mathlib

/-!
Shallow embedding of the trace-sampling core (`sampler.go`) of the
jaeger-client-go repository, together with theorems settling the frozen
claims about it.

Modelling conventions:
* Go `float64` sampling rates, lower bounds and token-bucket balances are
  modelled as `ℚ`.  Every float the claims touch is an exact rational, and
  the two float operations the code performs on them (comparison against
  0 and 1, and the boundary computation at rates 0 and 1) are exact in
  IEEE double precision, so no rounding is lost at the inputs the claims
  quantify over.
* Go `uint64` trace ids are modelled as `ℕ`; the code only compares them
  (no arithmetic), so no wrap-around can occur.
* The wall clock read by the token-bucket rate limiter is threaded through
  as an explicit `now : ℚ` argument (seconds).
* Stateful Go methods (which mutate through pointers) become functions
  returning the updated value next to their Go result.
* Go's `(T, error)` returns become `Except String T`; a Go `[]Tag` result
  that can be `nil` becomes `Option (List Tag)` (`none` = `nil`).
* The Go `map[string]*GuaranteedThroughputProbabilisticSampler` becomes an
  association list with lookup of the first matching key and
  replace-or-append insertion; since insertion keeps keys distinct exactly
  like a Go map, its length is the map's size.
-/

set_option autoImplicit false
set_option maxHeartbeats 1000000

namespace JaegerSampler

/-- A span tag value: the Go code stores strings, float64s and bools in the
dynamically typed Go field `Tag.value`. -/
inductive TagValue where
  | str (s : String)
  | num (q : ℚ)
  | boolean (b : Bool)
  deriving DecidableEq

/-- A span tag, a key/value pair (`Tag` in the Go source). -/
structure Tag where
  key : String
  value : TagValue
  deriving DecidableEq

/-- Modelled from the spec: the tag-key constant `sampler.type` (declared in a
constants file of the repository that is not part of the given source). -/
def SamplerTypeTagKey : String := "sampler.type"

/-- Modelled from the spec: the tag-key constant `sampler.param`. -/
def SamplerParamTagKey : String := "sampler.param"

/-- Modelled from the spec: the `sampler.type` value for constant samplers. -/
def SamplerTypeConst : String := "const"

/-- Modelled from the spec: the `sampler.type` value for probabilistic samplers. -/
def SamplerTypeProbabilistic : String := "probabilistic"

/-- Modelled from the spec: the `sampler.type` value for rate-limiting samplers. -/
def SamplerTypeRateLimiting : String := "ratelimiting"

/-- Modelled from the spec: the `sampler.type` value for the lower-bound branch
of the guaranteed-throughput sampler. -/
def SamplerTypeLowerBound : String := "lowerbound"

/-- Modelled from the spec: the token-bucket rate limiter `utils.RateLimiter`
(its source file is not part of the given source).  Per the spec it accrues
`creditsPerSecond` tokens per second up to a burst cap of
`max creditsPerSecond 1`, starting from a full bucket. -/
structure RateLimiter where
  creditsPerSecond : ℚ
  balance : ℚ
  maxBalance : ℚ
  lastTick : ℚ
  deriving DecidableEq

/-- Modelled from the spec: `utils.NewRateLimiter`, starting from a full bucket. -/
def NewRateLimiter (creditsPerSecond : ℚ) (now : ℚ) : RateLimiter :=
  { creditsPerSecond := creditsPerSecond
    balance := max creditsPerSecond 1
    maxBalance := max creditsPerSecond 1
    lastTick := now }

/-- Modelled from the spec: `RateLimiter.CheckCredit` — accrue credit for the
elapsed time (capped at the burst cap), then consume `itemCost` iff the
balance covers it. -/
def RateLimiter.CheckCredit (b : RateLimiter) (itemCost : ℚ) (now : ℚ) :
    Bool × RateLimiter :=
  let elapsed := now - b.lastTick
  let balance := min b.maxBalance (b.balance + elapsed * b.creditsPerSecond)
  if itemCost ≤ balance then
    (true, { b with balance := balance - itemCost, lastTick := now })
  else
    (false, { b with balance := balance, lastTick := now })

/-- `ConstSampler` from the Go source. -/
structure ConstSampler where
  Decision : Bool
  tags : List Tag
  deriving DecidableEq

/-- `NewConstSampler` from the Go source. -/
def NewConstSampler (sample : Bool) : ConstSampler :=
  { Decision := sample
    tags := [⟨SamplerTypeTagKey, .str SamplerTypeConst⟩,
             ⟨SamplerParamTagKey, .boolean sample⟩] }

/-- `ConstSampler.IsSampled` from the Go source. -/
def ConstSampler.IsSampled (s : ConstSampler) (_id : ℕ) (_operation : String) :
    Bool × List Tag :=
  (s.Decision, s.tags)

/-- `maxRandomNumber = ^(uint64(1) << 63)`, i.e. `2 ^ 63 - 1`. -/
def maxRandomNumber : ℕ := 2 ^ 63 - 1

/-- The value of the Go expression `float64(maxRandomNumber)`:
`2 ^ 63 - 1` is not representable in IEEE double precision and rounds (to
nearest) to exactly `2 ^ 63`. -/
def floatMaxRandomNumber : ℚ := 2 ^ 63

/-- The Go expression `uint64(float64(maxRandomNumber) * samplingRate)`.
Multiplying a double in `[0, 1]` by the power of two `2 ^ 63` is exact in
double precision, and the Go float-to-uint64 conversion truncates toward
zero, so for every representable rate in `[0, 1]` the boundary is exactly
`⌊2 ^ 63 * rate⌋`. -/
def samplingBoundary (samplingRate : ℚ) : ℕ :=
  (⌊floatMaxRandomNumber * samplingRate⌋).toNat

/-- `ProbabilisticSampler` from the Go source. -/
structure ProbabilisticSampler where
  SamplingBoundary : ℕ
  tags : List Tag
  deriving DecidableEq

/-- `NewProbabilisticSampler` from the Go source: reject rates outside
`[0, 1]`, otherwise store the boundary and the probabilistic tags. -/
def NewProbabilisticSampler (samplingRate : ℚ) :
    Except String ProbabilisticSampler :=
  if samplingRate < 0 ∨ samplingRate > 1 then
    .error "Sampling Rate must be between 0.0 and 1.0"
  else
    .ok { SamplingBoundary := samplingBoundary samplingRate
          tags := [⟨SamplerTypeTagKey, .str SamplerTypeProbabilistic⟩,
                   ⟨SamplerParamTagKey, .num samplingRate⟩] }

/-- `ProbabilisticSampler.IsSampled` from the Go source:
`s.SamplingBoundary >= id`. -/
def ProbabilisticSampler.IsSampled (s : ProbabilisticSampler) (id : ℕ)
    (_operation : String) : Bool × List Tag :=
  (decide (s.SamplingBoundary ≥ id), s.tags)

/-- `rateLimitingSampler` from the Go source. -/
structure rateLimitingSampler where
  maxTracesPerSecond : ℚ
  rateLimiter : RateLimiter
  tags : List Tag
  deriving DecidableEq

/-- `NewRateLimitingSampler` from the Go source. -/
def NewRateLimitingSampler (maxTracesPerSecond : ℚ) (now : ℚ) :
    rateLimitingSampler :=
  { maxTracesPerSecond := maxTracesPerSecond
    rateLimiter := NewRateLimiter maxTracesPerSecond now
    tags := [⟨SamplerTypeTagKey, .str SamplerTypeRateLimiting⟩,
             ⟨SamplerParamTagKey, .num maxTracesPerSecond⟩] }

/-- `rateLimitingSampler.IsSampled` from the Go source:
`s.rateLimiter.CheckCredit(1.0)`. -/
def rateLimitingSampler.IsSampled (s : rateLimitingSampler) (now : ℚ)
    (_id : ℕ) (_operation : String) :
    (Bool × List Tag) × rateLimitingSampler :=
  let (ok, rl) := s.rateLimiter.CheckCredit 1 now
  ((ok, s.tags), { s with rateLimiter := rl })

/-- `GuaranteedThroughputProbabilisticSampler` from the Go source.  The Go
fields have the interface type `Sampler` but always hold a
`*ProbabilisticSampler` and a `*rateLimitingSampler` respectively, so they
are embedded at those concrete types. -/
structure GuaranteedThroughputProbabilisticSampler where
  probabilisticSampler : ProbabilisticSampler
  lowerBoundSampler : rateLimitingSampler
  operation : String
  tags : List Tag
  samplingRate : ℚ
  lowerBound : ℚ
  deriving DecidableEq

/-- `NewGuaranteedThroughputProbabilisticSampler` from the Go source. -/
def NewGuaranteedThroughputProbabilisticSampler (operation : String)
    (lowerBound samplingRate : ℚ) (now : ℚ) :
    Except String GuaranteedThroughputProbabilisticSampler :=
  match NewProbabilisticSampler samplingRate with
  | .error e => .error e
  | .ok probabilisticSampler =>
    .ok { probabilisticSampler := probabilisticSampler
          lowerBoundSampler := NewRateLimitingSampler lowerBound now
          operation := operation
          tags := [⟨SamplerTypeTagKey, .str SamplerTypeLowerBound⟩,
                   ⟨SamplerParamTagKey, .num samplingRate⟩]
          samplingRate := samplingRate
          lowerBound := lowerBound }

/-- `GuaranteedThroughputProbabilisticSampler.IsSampled` from the Go source:
if the probabilistic sampler accepts, also run the lower-bound limiter and
return the probabilistic tags; otherwise return the lower-bound limiter's
decision with `s.tags`. -/
def GuaranteedThroughputProbabilisticSampler.IsSampled
    (s : GuaranteedThroughputProbabilisticSampler) (now : ℚ) (id : ℕ)
    (operation : String) :
    (Bool × Option (List Tag)) × GuaranteedThroughputProbabilisticSampler :=
  let (sampled, tags) := s.probabilisticSampler.IsSampled id operation
  if sampled then
    let (_, lb) := s.lowerBoundSampler.IsSampled now id operation
    ((true, some tags), { s with lowerBoundSampler := lb })
  else
    let ((sampled2, _), lb) := s.lowerBoundSampler.IsSampled now id operation
    ((sampled2, some s.tags), { s with lowerBoundSampler := lb })

/-- `GuaranteedThroughputProbabilisticSampler.update` from the Go source:
replace the probabilistic sampler (and tags) iff the rate changed — failing
before any mutation if the new rate is invalid — then replace the
lower-bound limiter iff the lower bound changed. -/
def GuaranteedThroughputProbabilisticSampler.update
    (s : GuaranteedThroughputProbabilisticSampler)
    (lowerBound samplingRate : ℚ) (now : ℚ) :
    Except String GuaranteedThroughputProbabilisticSampler :=
  match
    (if s.samplingRate ≠ samplingRate then
      match NewProbabilisticSampler samplingRate with
      | .error e => .error e
      | .ok probabilisticSampler =>
        .ok { s with probabilisticSampler := probabilisticSampler
                     samplingRate := samplingRate
                     tags := [⟨SamplerTypeTagKey, .str SamplerTypeLowerBound⟩,
                              ⟨SamplerParamTagKey, .num samplingRate⟩] }
    else .ok s : Except String GuaranteedThroughputProbabilisticSampler) with
  | .error e => .error e
  | .ok s1 =>
    .ok (if s1.lowerBound ≠ lowerBound then
          { s1 with lowerBoundSampler := NewRateLimitingSampler lowerBound now
                    lowerBound := lowerBound }
        else s1)

/-- The thrift-generated `sampling.ProbabilisticSamplingStrategy`; its single
field is determined by its uses in the source and by the spec's
strategy-fetch protocol. -/
structure ProbabilisticSamplingStrategy where
  SamplingRate : ℚ
  deriving DecidableEq

/-- The thrift-generated `sampling.OperationSamplingStrategy` (fields as used
by the source). -/
structure OperationSamplingStrategy where
  Operation : String
  ProbabilisticSampling : ProbabilisticSamplingStrategy
  deriving DecidableEq

/-- The thrift-generated `sampling.PerOperationSamplingStrategies` (fields as
used by the source). -/
structure PerOperationSamplingStrategies where
  DefaultSamplingProbability : ℚ
  DefaultLowerBoundTracesPerSecond : ℚ
  PerOperationStrategies : List OperationSamplingStrategy
  deriving DecidableEq

/-- The Go `map[string]*GuaranteedThroughputProbabilisticSampler`, as an
association list (see the module docstring). -/
abbrev SamplerMap := List (String × GuaranteedThroughputProbabilisticSampler)

/-- Go map read `s.samplers[operation]`: first entry with a matching key. -/
def lookupOp : SamplerMap → String → Option GuaranteedThroughputProbabilisticSampler
  | [], _ => none
  | (k, v) :: rest, operation =>
    if k = operation then some v else lookupOp rest operation

/-- Go map write `s.samplers[operation] = sampler`: replace the entry with a
matching key, or append a fresh one. -/
def insertOp : SamplerMap → String → GuaranteedThroughputProbabilisticSampler → SamplerMap
  | [], operation, g => [(operation, g)]
  | (k, v) :: rest, operation, g =>
    if k = operation then (k, g) :: rest else (k, v) :: insertOp rest operation g

/-- `adaptiveSampler` from the Go source. -/
structure adaptiveSampler where
  samplers : SamplerMap
  defaultSampler : ProbabilisticSampler
  defaultSamplingProbability : ℚ
  lowerBound : ℚ
  maxOperations : ℕ
  deriving DecidableEq

/-- The construction loop of `NewAdaptiveSampler`: one guaranteed-throughput
composite per listed strategy, aborting on the first construction error. -/
def buildSamplers (lowerBound : ℚ) (now : ℚ) :
    List OperationSamplingStrategy → SamplerMap → Except String SamplerMap
  | [], acc => .ok acc
  | strategy :: rest, acc =>
    match NewGuaranteedThroughputProbabilisticSampler strategy.Operation
        lowerBound strategy.ProbabilisticSampling.SamplingRate now with
    | .error e => .error e
    | .ok sampler =>
      buildSamplers lowerBound now rest (insertOp acc strategy.Operation sampler)

/-- `NewAdaptiveSampler` from the Go source. -/
def NewAdaptiveSampler (strategies : PerOperationSamplingStrategies)
    (maxOperations : ℕ) (now : ℚ) : Except String adaptiveSampler :=
  match buildSamplers strategies.DefaultLowerBoundTracesPerSecond now
      strategies.PerOperationStrategies [] with
  | .error e => .error e
  | .ok samplers =>
    match NewProbabilisticSampler strategies.DefaultSamplingProbability with
    | .error e => .error e
    | .ok defaultSampler =>
      .ok { samplers := samplers
            defaultSampler := defaultSampler
            defaultSamplingProbability := strategies.DefaultSamplingProbability
            lowerBound := strategies.DefaultLowerBoundTracesPerSecond
            maxOperations := maxOperations }

/-- `adaptiveSampler.IsSampled` from the Go source: delegate to the
operation's composite if present; otherwise lazily create one while below
`maxOperations` (the Go error branch returns `(false, nil)`), else fall back
to the default sampler. -/
def adaptiveSampler.IsSampled (s : adaptiveSampler) (now : ℚ) (id : ℕ)
    (operation : String) : (Bool × Option (List Tag)) × adaptiveSampler :=
  match lookupOp s.samplers operation with
  | some sampler =>
    let (res, sampler1) := sampler.IsSampled now id operation
    (res, { s with samplers := insertOp s.samplers operation sampler1 })
  | none =>
    if s.samplers.length ≥ s.maxOperations then
      let (sampled, tags) := s.defaultSampler.IsSampled id operation
      ((sampled, some tags), s)
    else
      match NewGuaranteedThroughputProbabilisticSampler operation s.lowerBound
          s.defaultSamplingProbability now with
      | .error _ => ((false, none), s)
      | .ok sampler =>
        let (res, sampler1) := sampler.IsSampled now id operation
        (res, { s with samplers := insertOp s.samplers operation sampler1 })

/-- One iteration of the per-operation loop of `adaptiveSampler.update`:
update the operation's composite in place if present, otherwise construct
and insert one; an invalid rate surfaces as the error. -/
def updateOneStrategy (lowerBound now : ℚ) (m : SamplerMap)
    (strategy : OperationSamplingStrategy) : Except String SamplerMap :=
  match lookupOp m strategy.Operation with
  | some sampler =>
    match sampler.update lowerBound strategy.ProbabilisticSampling.SamplingRate now with
    | .error e => .error e
    | .ok sampler1 => .ok (insertOp m strategy.Operation sampler1)
  | none =>
    match NewGuaranteedThroughputProbabilisticSampler strategy.Operation lowerBound
        strategy.ProbabilisticSampling.SamplingRate now with
    | .error e => .error e
    | .ok sampler => .ok (insertOp m strategy.Operation sampler)

/-- The per-operation loop of `adaptiveSampler.update`.  The Go loop mutates
the map in place and returns on the first error, so the partially updated
map is kept; the result carries the map as mutated so far together with the
error, if any. -/
def updateSamplersLoop (lowerBound now : ℚ) :
    List OperationSamplingStrategy → SamplerMap → SamplerMap × Option String
  | [], m => (m, none)
  | strategy :: rest, m =>
    match updateOneStrategy lowerBound now m strategy with
    | .error e => (m, some e)
    | .ok m1 => updateSamplersLoop lowerBound now rest m1

/-- `adaptiveSampler.update` from the Go source.  Go mutates the receiver and
returns an `error`; here the (possibly partially) updated sampler is returned
next to the error, if any.  Note that `lowerBound` and the default sampler
are only assigned after the per-operation loop has finished without error. -/
def adaptiveSampler.update (s : adaptiveSampler)
    (strategies : PerOperationSamplingStrategies) (now : ℚ) :
    adaptiveSampler × Option String :=
  match updateSamplersLoop strategies.DefaultLowerBoundTracesPerSecond now
      strategies.PerOperationStrategies s.samplers with
  | (m, some e) => ({ s with samplers := m }, some e)
  | (m, none) =>
    let s1 := { s with samplers := m
                       lowerBound := strategies.DefaultLowerBoundTracesPerSecond }
    if s1.defaultSamplingProbability ≠ strategies.DefaultSamplingProbability then
      match NewProbabilisticSampler strategies.DefaultSamplingProbability with
      | .error e => (s1, some e)
      | .ok defaultSampler =>
        ({ s1 with
            defaultSamplingProbability := strategies.DefaultSamplingProbability
            defaultSampler := defaultSampler }, none)
    else (s1, none)

/-- The Go `Sampler` interface, as the tagged union of its implementations
in the source (the remote controller variant is modelled separately as
`RemotelyControlledSampler`). -/
inductive Sampler where
  | const (s : ConstSampler)
  | probabilistic (s : ProbabilisticSampler)
  | rateLimiting (s : rateLimitingSampler)
  | guaranteed (s : GuaranteedThroughputProbabilisticSampler)
  | adaptive (s : adaptiveSampler)
  deriving DecidableEq

/-- The `Equal` methods of the Go source, combined over the union.  Each
implementation type-asserts `other` to its own type: `ConstSampler` compares
decisions, `ProbabilisticSampler` compares boundaries, `rateLimitingSampler`
compares `maxTracesPerSecond`, and the guaranteed-throughput and adaptive
samplers always answer `false`. -/
def Sampler.Equal : Sampler → Sampler → Bool
  | .const s, .const o => s.Decision == o.Decision
  | .probabilistic s, .probabilistic o => s.SamplingBoundary == o.SamplingBoundary
  | .rateLimiting s, .rateLimiting o =>
    decide (s.maxTracesPerSecond = o.maxTracesPerSecond)
  | _, _ => false

/-- The thrift-generated `sampling.RateLimitingSamplingStrategy` (its field
as used by the source; the source converts it to `float64`). -/
structure RateLimitingSamplingStrategy where
  MaxTracesPerSecond : ℤ
  deriving DecidableEq

/-- The thrift-generated `sampling.SamplingStrategyResponse`: at most one of
the three strategy variants is populated (`none` models a Go nil pointer,
which is what the `Get...` accessors report). -/
structure SamplingStrategyResponse where
  OperationSampling : Option PerOperationSamplingStrategies
  ProbabilisticSampling : Option ProbabilisticSamplingStrategy
  RateLimitingSampling : Option RateLimitingSamplingStrategy
  deriving DecidableEq

/-- The metrics counters of the controller that the source increments. -/
structure Metrics where
  SamplerRetrieved : ℕ
  SamplerUpdated : ℕ
  SamplerUpdateFailure : ℕ
  SamplerParsingFailure : ℕ
  SamplerQueryFailure : ℕ
  deriving DecidableEq

/-- The state of `RemotelyControlledSampler` that its update path touches
(the poll timer, logger, service name and HTTP manager are I/O capabilities
outside the embedding). -/
structure RemotelyControlledSampler where
  sampler : Sampler
  metrics : Metrics
  maxOperations : ℕ
  deriving DecidableEq

/-- `RemotelyControlledSampler.extractSampler` from the Go source. -/
def RemotelyControlledSampler.extractSampler (s : RemotelyControlledSampler)
    (res : SamplingStrategyResponse) (now : ℚ) :
    Except String (Sampler × Option PerOperationSamplingStrategies) :=
  match res.OperationSampling with
  | some strategies =>
    match s.sampler with
    | .adaptive a => .ok (.adaptive a, some strategies)
    | _ =>
      match NewAdaptiveSampler strategies s.maxOperations now with
      | .error e => .error e
      | .ok sampler => .ok (.adaptive sampler, some strategies)
  | none =>
    match res.ProbabilisticSampling with
    | some probabilistic =>
      match NewProbabilisticSampler probabilistic.SamplingRate with
      | .error e => .error e
      | .ok sampler => .ok (.probabilistic sampler, none)
    | none =>
      match res.RateLimitingSampling with
      | some rateLimiting =>
        .ok (.rateLimiting
          (NewRateLimitingSampler (rateLimiting.MaxTracesPerSecond : ℚ) now), none)
      | none => .error "Unsupported sampling strategy type"

/-- `RemotelyControlledSampler.lockAndUpdateSampler` from the Go source.  When
the active sampler is adaptive, it is updated in place through its pointer —
so on error the partially updated adaptive sampler stays active and only
`SamplerUpdateFailure` is incremented, and on success the subsequent
`s.sampler = updateSampler` assignment re-installs that same (now updated)
pointer, which the Go call sites always pass as `updateSampler` in this case.
The `none` result models the nil-pointer dereference Go would perform if the
active sampler were adaptive but no strategies were supplied (unreachable
from `updateSampler`). -/
def RemotelyControlledSampler.lockAndUpdateSampler (s : RemotelyControlledSampler)
    (updSampler : Sampler) (strategies : Option PerOperationSamplingStrategies)
    (now : ℚ) : Option RemotelyControlledSampler :=
  match s.sampler with
  | .adaptive a =>
    match strategies with
    | none => none
    | some st =>
      match a.update st now with
      | (a1, some _) =>
        some { s with sampler := .adaptive a1
                      metrics := { s.metrics with
                        SamplerUpdateFailure := s.metrics.SamplerUpdateFailure + 1 } }
      | (a1, none) =>
        some { s with sampler := .adaptive a1
                      metrics := { s.metrics with
                        SamplerUpdated := s.metrics.SamplerUpdated + 1 } }
  | _ =>
    some { s with sampler := updSampler
                  metrics := { s.metrics with
                    SamplerUpdated := s.metrics.SamplerUpdated + 1 } }

/-- `RemotelyControlledSampler.updateSampler` from the Go source, modelling
one poll tick whose strategy fetch succeeded with response `res` (the fetch
itself is I/O; its failure branch only increments `SamplerQueryFailure`). -/
def RemotelyControlledSampler.updateSampler (s : RemotelyControlledSampler)
    (res : SamplingStrategyResponse) (now : ℚ) :
    Option RemotelyControlledSampler :=
  match s.extractSampler res now with
  | .ok (sampler, strategies) =>
    let s1 := { s with metrics := { s.metrics with
                  SamplerRetrieved := s.metrics.SamplerRetrieved + 1 } }
    if s1.sampler.Equal sampler then some s1
    else s1.lockAndUpdateSampler sampler strategies now
  | .error _ =>
    some { s with metrics := { s.metrics with
             SamplerParsingFailure := s.metrics.SamplerParsingFailure + 1 } }

/-- A trace of `adaptiveSampler.IsSampled` calls: each element supplies the
clock reading, trace id and operation of one call, and the sampler state is
threaded through. -/
def applyIsSampledCalls (s : adaptiveSampler) :
    List (ℚ × ℕ × String) → adaptiveSampler
  | [] => s
  | (now, id, operation) :: rest =>
    applyIsSampledCalls ((s.IsSampled now id operation).2) rest

/-- The value of `NewGuaranteedThroughputProbabilisticSampler "op" 0 0` at
clock 0: probabilistic rate 0 (boundary 0) over a lower bound of 0 traces
per second (whose fresh token bucket still starts with one token of burst). -/
def probeGuaranteedZero : GuaranteedThroughputProbabilisticSampler :=
  { probabilisticSampler :=
      { SamplingBoundary := 0
        tags := [⟨SamplerTypeTagKey, .str SamplerTypeProbabilistic⟩,
                 ⟨SamplerParamTagKey, .num 0⟩] }
    lowerBoundSampler :=
      { maxTracesPerSecond := 0
        rateLimiter :=
          { creditsPerSecond := 0, balance := 1, maxBalance := 1, lastTick := 0 }
        tags := [⟨SamplerTypeTagKey, .str SamplerTypeRateLimiting⟩,
                 ⟨SamplerParamTagKey, .num 0⟩] }
    operation := "op"
    tags := [⟨SamplerTypeTagKey, .str SamplerTypeLowerBound⟩,
             ⟨SamplerParamTagKey, .num 0⟩]
    samplingRate := 0
    lowerBound := 0 }

/-- An adaptive sampler with no per-operation composites, a cap of 0
operations, and a default probabilistic sampler at rate `1/2`. -/
def probeAdaptiveEmpty : adaptiveSampler :=
  { samplers := []
    defaultSampler :=
      { SamplingBoundary := samplingBoundary (1/2)
        tags := [⟨SamplerTypeTagKey, .str SamplerTypeProbabilistic⟩,
                 ⟨SamplerParamTagKey, .num (1/2)⟩] }
    defaultSamplingProbability := 1/2
    lowerBound := 1
    maxOperations := 0 }

/-- A one-operation strategy list (operation `"a"` at rate 1, default rate 1,
lower bound 1) used to exercise `NewAdaptiveSampler` past its cap. -/
def capStrategies : PerOperationSamplingStrategies :=
  { DefaultSamplingProbability := 1
    DefaultLowerBoundTracesPerSecond := 1
    PerOperationStrategies := [⟨"a", ⟨1⟩⟩] }

/-- An adaptive sampler with no composites yet, default rate 1, lower bound
1 and room for 5 operations, used to exercise `adaptiveSampler.update`. -/
def reconcileBase : adaptiveSampler :=
  { samplers := []
    defaultSampler :=
      { SamplingBoundary := samplingBoundary 1
        tags := [⟨SamplerTypeTagKey, .str SamplerTypeProbabilistic⟩,
                 ⟨SamplerParamTagKey, .num 1⟩] }
    defaultSamplingProbability := 1
    lowerBound := 1
    maxOperations := 5 }

/-- A strategy list reconfiguring operation `"a"` to rate 1 (default rate 1,
lower bound 1). -/
def reconcileStrategies : PerOperationSamplingStrategies :=
  { DefaultSamplingProbability := 1
    DefaultLowerBoundTracesPerSecond := 1
    PerOperationStrategies := [⟨"a", ⟨1⟩⟩] }

/-- The state `reconcileBase.update reconcileStrategies 0` reaches: the
composite for `"a"` has been created and stored. -/
def reconcileAfter : adaptiveSampler :=
  { reconcileBase with
      samplers :=
        [("a",
          { probabilisticSampler :=
              { SamplingBoundary := samplingBoundary 1
                tags := [⟨SamplerTypeTagKey, .str SamplerTypeProbabilistic⟩,
                         ⟨SamplerParamTagKey, .num 1⟩] }
            lowerBoundSampler := NewRateLimitingSampler 1 0
            operation := "a"
            tags := [⟨SamplerTypeTagKey, .str SamplerTypeLowerBound⟩,
                     ⟨SamplerParamTagKey, .num 1⟩]
            samplingRate := 1
            lowerBound := 1 })] }

/-- An adaptive sampler (empty map, rate 0, lower bound 0, cap 0) used to
exercise the partial-update-on-error behaviour. -/
def stopBase : adaptiveSampler :=
  { samplers := []
    defaultSampler :=
      { SamplingBoundary := samplingBoundary 0
        tags := [⟨SamplerTypeTagKey, .str SamplerTypeProbabilistic⟩,
                 ⟨SamplerParamTagKey, .num 0⟩] }
    defaultSamplingProbability := 0
    lowerBound := 0
    maxOperations := 0 }

/-- A strategy list whose single entry carries the invalid rate 2. -/
def stopStrategies : PerOperationSamplingStrategies :=
  { DefaultSamplingProbability := 0
    DefaultLowerBoundTracesPerSecond := 0
    PerOperationStrategies := [⟨"b", ⟨2⟩⟩] }

/-- A strategy response carrying only a probabilistic strategy at rate 1. -/
def pollResponse : SamplingStrategyResponse :=
  { OperationSampling := none
    ProbabilisticSampling := some ⟨1⟩
    RateLimitingSampling := none }

/-- The controller state after `pollResponse` has been applied once: its
active sampler is the rate-1 probabilistic sampler that response builds. -/
def pollController : RemotelyControlledSampler :=
  { sampler := .probabilistic
      { SamplingBoundary := samplingBoundary 1
        tags := [⟨SamplerTypeTagKey, .str SamplerTypeProbabilistic⟩,
                 ⟨SamplerParamTagKey, .num 1⟩] }
    metrics := ⟨1, 1, 0, 0, 0⟩
    maxOperations := 3 }

/-- An adaptive sampler whose stored default probability `1/2` is in range,
used to exhibit that the lazy-create error branch is unreachable. -/
def safeAdaptive : adaptiveSampler :=
  { samplers := []
    defaultSampler :=
      { SamplingBoundary := samplingBoundary (1/2)
        tags := [⟨SamplerTypeTagKey, .str SamplerTypeProbabilistic⟩,
                 ⟨SamplerParamTagKey, .num (1/2)⟩] }
    defaultSamplingProbability := 1/2
    lowerBound := 0
    maxOperations := 7 }

/-! ### Helper lemmas about the samplers map -/

theorem lookupOp_insertOp_self (m : SamplerMap) (k : String)
    (v : GuaranteedThroughputProbabilisticSampler) :
    lookupOp (insertOp m k v) k = some v := by
  induction m with
  | nil => simp [lookupOp, insertOp]
  | cons hd tl ih =>
    obtain ⟨k', v'⟩ := hd
    by_cases h : k' = k <;> simp [lookupOp, insertOp, h, ih]

theorem lookupOp_insertOp_ne (m : SamplerMap) (k op : String)
    (v : GuaranteedThroughputProbabilisticSampler) (h : k ≠ op) :
    lookupOp (insertOp m k v) op = lookupOp m op := by
  induction m with
  | nil => simp [lookupOp, insertOp, h]
  | cons hd tl ih =>
    obtain ⟨k', v'⟩ := hd
    by_cases h1 : k' = k
    · subst h1
      simp [lookupOp, insertOp, h]
    · by_cases h2 : k' = op <;>
        simp [lookupOp, insertOp, h1, h2, Ne.symm h, ih]

theorem length_insertOp_isSome (m : SamplerMap) (k : String)
    (v : GuaranteedThroughputProbabilisticSampler)
    (h : (lookupOp m k).isSome) : (insertOp m k v).length = m.length := by
  induction m with
  | nil => simp [lookupOp] at h
  | cons hd tl ih =>
    obtain ⟨k', v'⟩ := hd
    by_cases h1 : k' = k
    · simp [insertOp, h1]
    · simp only [lookupOp, h1, if_false] at h
      simp [insertOp, h1, ih h]

theorem length_insertOp_none (m : SamplerMap) (k : String)
    (v : GuaranteedThroughputProbabilisticSampler)
    (h : lookupOp m k = none) : (insertOp m k v).length = m.length + 1 := by
  induction m with
  | nil => simp [insertOp]
  | cons hd tl ih =>
    obtain ⟨k', v'⟩ := hd
    by_cases h1 : k' = k
    · simp [lookupOp, h1] at h
    · simp only [lookupOp, h1, if_false] at h
      simp [insertOp, h1, ih h]

theorem lookupOp_mem (m : SamplerMap) (op : String)
    (g : GuaranteedThroughputProbabilisticSampler)
    (h : lookupOp m op = some g) : (op, g) ∈ m := by
  induction m with
  | nil => simp [lookupOp] at h
  | cons hd tl ih =>
    obtain ⟨k', v'⟩ := hd
    by_cases h1 : k' = op
    · subst h1
      simp [lookupOp] at h
      simp [h]
    · simp only [lookupOp, h1, if_false] at h
      exact List.mem_cons_of_mem _ (ih h)

theorem mem_insertOp (m : SamplerMap) (k : String)
    (v : GuaranteedThroughputProbabilisticSampler)
    (p : String × GuaranteedThroughputProbabilisticSampler)
    (h : p ∈ insertOp m k v) : p ∈ m ∨ p = (k, v) := by
  induction m with
  | nil =>
    simp [insertOp] at h
    simp [h]
  | cons hd tl ih =>
    obtain ⟨k', v'⟩ := hd
    by_cases h1 : k' = k
    · simp only [insertOp, h1, if_true] at h
      rcases List.mem_cons.mp h with h2 | h2
      · exact Or.inr h2
      · exact Or.inl (List.mem_cons_of_mem _ h2)
    · simp only [insertOp, h1, if_false] at h
      rcases List.mem_cons.mp h with h2 | h2
      · exact Or.inl (h2 ▸ List.mem_cons_self _ _)
      · rcases ih h2 with h3 | h3
        · exact Or.inl (List.mem_cons_of_mem _ h3)
        · exact Or.inr h3

theorem isSome_lookupOp_insertOp (m : SamplerMap) (k op : String)
    (v : GuaranteedThroughputProbabilisticSampler)
    (h : (lookupOp m op).isSome) : (lookupOp (insertOp m k v) op).isSome := by
  by_cases h1 : k = op
  · subst h1
    simp [lookupOp_insertOp_self]
  · rw [lookupOp_insertOp_ne m k op v h1]
    exact h

/-! ### Helper lemmas about the constructors and `update` -/

theorem newProbabilistic_ok_of_inRange (r : ℚ) (h0 : 0 ≤ r) (h1 : r ≤ 1) :
    NewProbabilisticSampler r =
      .ok { SamplingBoundary := samplingBoundary r
            tags := [⟨SamplerTypeTagKey, .str SamplerTypeProbabilistic⟩,
                     ⟨SamplerParamTagKey, .num r⟩] } := by
  rw [NewProbabilisticSampler, if_neg]
  push_neg
  exact ⟨h0, h1⟩

theorem newProbabilistic_error_of_outRange (r : ℚ) (h : r < 0 ∨ 1 < r) :
    NewProbabilisticSampler r = .error "Sampling Rate must be between 0.0 and 1.0" := by
  rw [NewProbabilisticSampler, if_pos h]

theorem newProbabilistic_ok_inRange (r : ℚ) (s : ProbabilisticSampler)
    (h : NewProbabilisticSampler r = .ok s) : 0 ≤ r ∧ r ≤ 1 := by
  by_contra hc
  push_neg at hc
  rw [NewProbabilisticSampler] at h
  by_cases hlt : r < 0
  · simp [hlt] at h
  · have := hc (le_of_not_lt hlt)
    simp [this] at h

theorem newGuaranteed_ok_of_inRange (operation : String) (lowerBound r now : ℚ)
    (h0 : 0 ≤ r) (h1 : r ≤ 1) :
    NewGuaranteedThroughputProbabilisticSampler operation lowerBound r now =
      .ok { probabilisticSampler :=
              { SamplingBoundary := samplingBoundary r
                tags := [⟨SamplerTypeTagKey, .str SamplerTypeProbabilistic⟩,
                         ⟨SamplerParamTagKey, .num r⟩] }
            lowerBoundSampler := NewRateLimitingSampler lowerBound now
            operation := operation
            tags := [⟨SamplerTypeTagKey, .str SamplerTypeLowerBound⟩,
                     ⟨SamplerParamTagKey, .num r⟩]
            samplingRate := r
            lowerBound := lowerBound } := by
  rw [NewGuaranteedThroughputProbabilisticSampler,
    newProbabilistic_ok_of_inRange r h0 h1]

theorem newGuaranteed_error_of_outRange (operation : String) (lowerBound r now : ℚ)
    (h : r < 0 ∨ 1 < r) :
    NewGuaranteedThroughputProbabilisticSampler operation lowerBound r now =
      .error "Sampling Rate must be between 0.0 and 1.0" := by
  rw [NewGuaranteedThroughputProbabilisticSampler,
    newProbabilistic_error_of_outRange r h]

theorem newGuaranteed_ok_fields (operation : String) (lowerBound r now : ℚ)
    (g : GuaranteedThroughputProbabilisticSampler)
    (h : NewGuaranteedThroughputProbabilisticSampler operation lowerBound r now = .ok g) :
    g.samplingRate = r ∧ (0 ≤ r ∧ r ≤ 1) ∧
      g.tags = [⟨SamplerTypeTagKey, .str SamplerTypeLowerBound⟩,
                ⟨SamplerParamTagKey, .num r⟩] ∧
      g.probabilisticSampler.tags =
        [⟨SamplerTypeTagKey, .str SamplerTypeProbabilistic⟩,
         ⟨SamplerParamTagKey, .num r⟩] := by
  rcases hr : NewProbabilisticSampler r with e | p
  · rw [NewGuaranteedThroughputProbabilisticSampler, hr] at h
    exact absurd h (by simp)
  · have hrange := newProbabilistic_ok_inRange r p hr
    rw [newGuaranteed_ok_of_inRange operation lowerBound r now hrange.1 hrange.2] at h
    simp only [Except.ok.injEq] at h
    subst h
    exact ⟨rfl, hrange, rfl, rfl⟩

theorem guaranteed_update_ok_rate (g : GuaranteedThroughputProbabilisticSampler)
    (lowerBound r now : ℚ) (g1 : GuaranteedThroughputProbabilisticSampler)
    (h : g.update lowerBound r now = .ok g1) : g1.samplingRate = r := by
  rw [GuaranteedThroughputProbabilisticSampler.update] at h
  by_cases hne : g.samplingRate ≠ r
  · rw [if_pos hne] at h
    rcases hr : NewProbabilisticSampler r with e | p <;> rw [hr] at h
    · exact absurd h (by simp)
    · replace h := Except.ok.inj h
      subst h
      split <;> rfl
  · rw [if_neg hne] at h
    push_neg at hne
    replace h := Except.ok.inj h
    subst h
    split <;> simp [hne]

theorem guaranteed_update_ok_of_inRange (g : GuaranteedThroughputProbabilisticSampler)
    (lowerBound r now : ℚ) (h0 : 0 ≤ r) (h1 : r ≤ 1) :
    ∃ g1, g.update lowerBound r now = .ok g1 := by
  rw [GuaranteedThroughputProbabilisticSampler.update]
  by_cases hne : g.samplingRate ≠ r
  · rw [if_pos hne, newProbabilistic_ok_of_inRange r h0 h1]
    exact ⟨_, rfl⟩
  · rw [if_neg hne]
    exact ⟨_, rfl⟩

theorem guaranteed_update_error_of_outRange (g : GuaranteedThroughputProbabilisticSampler)
    (lowerBound r now : ℚ) (hne : g.samplingRate ≠ r) (h : r < 0 ∨ 1 < r) :
    g.update lowerBound r now = .error "Sampling Rate must be between 0.0 and 1.0" := by
  rw [GuaranteedThroughputProbabilisticSampler.update, if_pos hne,
    newProbabilistic_error_of_outRange r h]

/-! ### Helper lemmas about the update loop -/

/-- Rates stored by the source are always within `[0, 1]`. -/
def rateInRange (r : ℚ) : Prop := 0 ≤ r ∧ r ≤ 1

/-- A successful loop iteration inserts (or replaces) exactly the strategy's
operation, with a composite carrying the strategy's rate. -/
theorem updateOne_ok_shape (lb now : ℚ) (m : SamplerMap)
    (strategy : OperationSamplingStrategy) (m1 : SamplerMap)
    (h : updateOneStrategy lb now m strategy = .ok m1) :
    ∃ g, m1 = insertOp m strategy.Operation g ∧
      g.samplingRate = strategy.ProbabilisticSampling.SamplingRate := by
  rw [updateOneStrategy] at h
  rcases hl : lookupOp m strategy.Operation with _ | g <;>
    simp only [hl] at h
  · rcases hn : NewGuaranteedThroughputProbabilisticSampler strategy.Operation lb
        strategy.ProbabilisticSampling.SamplingRate now with e | g2 <;>
      simp only [hn] at h
    · exact absurd h (by simp)
    · replace h := Except.ok.inj h
      exact ⟨g2, h.symm, (newGuaranteed_ok_fields _ _ _ _ _ hn).1⟩
  · rcases hu : g.update lb strategy.ProbabilisticSampling.SamplingRate now
        with e | g1 <;> simp only [hu] at h
    · exact absurd h (by simp)
    · replace h := Except.ok.inj h
      exact ⟨g1, h.symm, guaranteed_update_ok_rate _ _ _ _ _ hu⟩

theorem updateOne_ok_of_inRange (lb now : ℚ) (m : SamplerMap)
    (strategy : OperationSamplingStrategy)
    (hm : ∀ p ∈ m, rateInRange p.2.samplingRate)
    (hr : rateInRange strategy.ProbabilisticSampling.SamplingRate) :
    ∃ m1, updateOneStrategy lb now m strategy = .ok m1 ∧
      ∀ p ∈ m1, rateInRange p.2.samplingRate := by
  rw [updateOneStrategy]
  rcases hl : lookupOp m strategy.Operation with _ | g <;> simp only [hl]
  · rw [newGuaranteed_ok_of_inRange strategy.Operation lb
      strategy.ProbabilisticSampling.SamplingRate now hr.1 hr.2]
    refine ⟨_, rfl, fun p hp => ?_⟩
    rcases mem_insertOp m strategy.Operation _ p hp with h2 | h2
    · exact hm p h2
    · rw [h2]
      exact hr
  · obtain ⟨g1, hg1⟩ := guaranteed_update_ok_of_inRange g lb
      strategy.ProbabilisticSampling.SamplingRate now hr.1 hr.2
    rw [hg1]
    refine ⟨_, rfl, fun p hp => ?_⟩
    rcases mem_insertOp m strategy.Operation _ p hp with h2 | h2
    · exact hm p h2
    · rw [h2]
      simp only
      rw [guaranteed_update_ok_rate _ _ _ _ _ hg1]
      exact hr

theorem updateOne_error_of_outRange (lb now : ℚ) (m : SamplerMap)
    (strategy : OperationSamplingStrategy)
    (hm : ∀ p ∈ m, rateInRange p.2.samplingRate)
    (hout : strategy.ProbabilisticSampling.SamplingRate < 0 ∨
            1 < strategy.ProbabilisticSampling.SamplingRate) :
    updateOneStrategy lb now m strategy =
      .error "Sampling Rate must be between 0.0 and 1.0" := by
  rw [updateOneStrategy]
  rcases hl : lookupOp m strategy.Operation with _ | g <;> simp only [hl]
  · rw [newGuaranteed_error_of_outRange strategy.Operation lb
      strategy.ProbabilisticSampling.SamplingRate now hout]
  · have hg := hm _ (lookupOp_mem m strategy.Operation g hl)
    have hne : g.samplingRate ≠ strategy.ProbabilisticSampling.SamplingRate := by
      rcases hout with hlt | hgt
      · exact fun hc => absurd (hc ▸ hg.1) (not_le.mpr hlt)
      · exact fun hc => absurd (hc ▸ hg.2) (not_le.mpr hgt)
    rw [guaranteed_update_error_of_outRange g lb
      strategy.ProbabilisticSampling.SamplingRate now hne hout]

theorem updateSamplersLoop_append (lb now : ℚ)
    (pre l : List OperationSamplingStrategy) (m m1 : SamplerMap)
    (h : updateSamplersLoop lb now pre m = (m1, none)) :
    updateSamplersLoop lb now (pre ++ l) m = updateSamplersLoop lb now l m1 := by
  induction pre generalizing m with
  | nil =>
    simp only [updateSamplersLoop, Prod.mk.injEq] at h
    rw [List.nil_append, h.1]
  | cons e rest ih =>
    simp only [updateSamplersLoop, List.cons_append] at h ⊢
    rcases hs : updateOneStrategy lb now m e with err | m2 <;>
      simp only [hs] at h ⊢
    · exact absurd h (by simp)
    · exact ih m2 h

theorem updateSamplersLoop_inRange_ok (lb now : ℚ)
    (l : List OperationSamplingStrategy) (m : SamplerMap)
    (hm : ∀ p ∈ m, rateInRange p.2.samplingRate)
    (hl : ∀ e ∈ l, rateInRange e.ProbabilisticSampling.SamplingRate) :
    ∃ m1, updateSamplersLoop lb now l m = (m1, none) ∧
      ∀ p ∈ m1, rateInRange p.2.samplingRate := by
  induction l generalizing m with
  | nil => exact ⟨m, rfl, hm⟩
  | cons e rest ih =>
    obtain ⟨m2, hm2, hinv⟩ := updateOne_ok_of_inRange lb now m e hm
      (hl e (List.mem_cons_self e rest))
    obtain ⟨m1, hm1, hinv1⟩ :=
      ih m2 hinv (fun e2 he2 => hl e2 (List.mem_cons_of_mem e he2))
    refine ⟨m1, ?_, hinv1⟩
    simp only [updateSamplersLoop, hm2]
    exact hm1

theorem updateSamplersLoop_ok_notMentioned (lb now : ℚ)
    (l : List OperationSamplingStrategy) (m m1 : SamplerMap) (op : String)
    (h : updateSamplersLoop lb now l m = (m1, none))
    (hop : op ∉ l.map (·.Operation)) : lookupOp m1 op = lookupOp m op := by
  induction l generalizing m with
  | nil =>
    simp only [updateSamplersLoop, Prod.mk.injEq] at h
    rw [h.1]
  | cons e rest ih =>
    simp only [updateSamplersLoop] at h
    rcases hs : updateOneStrategy lb now m e with err | m2 <;>
      simp only [hs] at h
    · exact absurd h (by simp)
    · simp only [List.map_cons, List.mem_cons, not_or] at hop
      obtain ⟨g, hg, _⟩ := updateOne_ok_shape lb now m e m2 hs
      rw [ih m2 h (by simpa using hop.2), hg,
        lookupOp_insertOp_ne m e.Operation op g (fun hc => hop.1 hc.symm)]

theorem updateSamplersLoop_preserves_isSome (lb now : ℚ)
    (l : List OperationSamplingStrategy) (m m1 : SamplerMap)
    (err : Option String) (h : updateSamplersLoop lb now l m = (m1, err)) :
    ∀ op, (lookupOp m op).isSome → (lookupOp m1 op).isSome := by
  induction l generalizing m with
  | nil =>
    simp only [updateSamplersLoop, Prod.mk.injEq] at h
    rw [h.1]
    exact fun _ hs => hs
  | cons e rest ih =>
    simp only [updateSamplersLoop] at h
    rcases hs : updateOneStrategy lb now m e with e2 | m2 <;>
      simp only [hs] at h
    · rw [← (Prod.mk.inj h).1]
      exact fun _ hs2 => hs2
    · intro op hop
      obtain ⟨g, hg, _⟩ := updateOne_ok_shape lb now m e m2 hs
      exact ih m2 h op (hg ▸ isSome_lookupOp_insertOp m e.Operation op g hop)

theorem updateSamplersLoop_ok_entries (lb now : ℚ)
    (l : List OperationSamplingStrategy) (m m1 : SamplerMap)
    (hnd : (l.map (·.Operation)).Nodup)
    (h : updateSamplersLoop lb now l m = (m1, none)) :
    ∀ e ∈ l, ∃ g, lookupOp m1 e.Operation = some g ∧
      g.samplingRate = e.ProbabilisticSampling.SamplingRate := by
  induction l generalizing m with
  | nil => intro e he; exact absurd he (List.not_mem_nil e)
  | cons e rest ih =>
    simp only [updateSamplersLoop] at h
    rcases hs : updateOneStrategy lb now m e with e2 | m2 <;>
      simp only [hs] at h
    · exact absurd h (by simp)
    · simp only [List.map_cons, List.nodup_cons] at hnd
      intro e3 he3
      rcases List.mem_cons.mp he3 with he3 | he3
      · subst he3
        obtain ⟨g, hg, hrate⟩ := updateOne_ok_shape lb now m e3 m2 hs
        refine ⟨g, ?_, hrate⟩
        rw [updateSamplersLoop_ok_notMentioned lb now rest m2 m1 e3.Operation h hnd.1,
          hg, lookupOp_insertOp_self]
      · exact ih m2 hnd.2 h e3 he3

/-- Closed form of `GuaranteedThroughputProbabilisticSampler.IsSampled`: the
decision is the probabilistic one, or else the limiter's; the tags are the
probabilistic tags or else `s.tags`; the lower-bound limiter steps in either
branch. -/
theorem guaranteed_isSampled_eq (g : GuaranteedThroughputProbabilisticSampler)
    (now : ℚ) (id : ℕ) (op : String) :
    g.IsSampled now id op =
      ((if (g.probabilisticSampler.IsSampled id op).1
        then (true, some (g.probabilisticSampler.IsSampled id op).2)
        else ((g.lowerBoundSampler.IsSampled now id op).1.1, some g.tags)),
       { g with lowerBoundSampler := (g.lowerBoundSampler.IsSampled now id op).2 }) := by
  rw [GuaranteedThroughputProbabilisticSampler.IsSampled]
  rcases hp : g.probabilisticSampler.IsSampled id op with ⟨sampled, tags⟩
  rcases hl : g.lowerBoundSampler.IsSampled now id op with ⟨⟨ok2, t2⟩, lb⟩
  cases sampled <;> simp

/-- The guaranteed-throughput sampler always returns tags (never Go `nil`). -/
theorem guaranteed_isSampled_tags_ne_none
    (g : GuaranteedThroughputProbabilisticSampler) (now : ℚ) (id : ℕ)
    (op : String) : (g.IsSampled now id op).1.2 ≠ none := by
  rw [guaranteed_isSampled_eq]
  by_cases hp : (g.probabilisticSampler.IsSampled id op).1 <;> simp [hp]

theorem samplingBoundary_zero : samplingBoundary 0 = 0 := by
  norm_num [samplingBoundary, floatMaxRandomNumber]

theorem samplingBoundary_one : samplingBoundary 1 = 2 ^ 63 := by
  norm_num [samplingBoundary, floatMaxRandomNumber]
  rfl

/-! ### The claims -/

/-- C1: for every trace id and operation, a guaranteed-throughput sampler
built by its constructor follows the two-branch protocol: if the inner
probabilistic sampler accepts the id, the call also consumes a token from
the lower-bound limiter and returns `true` with the probabilistic tags;
otherwise, if the lower-bound limiter grants a token, it returns `true`
with tags `sampler.type = "lowerbound"` and `sampler.param = samplingRate`
(the probabilistic rate, not the lower bound). -/
theorem C1_guaranteed_two_branch_protocol
    (operation : String) (lowerBound samplingRate now0 : ℚ)
    (g : GuaranteedThroughputProbabilisticSampler)
    (hg : NewGuaranteedThroughputProbabilisticSampler operation lowerBound
            samplingRate now0 = .ok g)
    (now : ℚ) (id : ℕ) (op : String) :
    ((g.probabilisticSampler.IsSampled id op).1 = true →
      g.IsSampled now id op =
        ((true, some [⟨SamplerTypeTagKey, .str SamplerTypeProbabilistic⟩,
                      ⟨SamplerParamTagKey, .num samplingRate⟩]),
         { g with lowerBoundSampler := (g.lowerBoundSampler.IsSampled now id op).2 })) ∧
    ((g.probabilisticSampler.IsSampled id op).1 = false →
     (g.lowerBoundSampler.IsSampled now id op).1.1 = true →
      g.IsSampled now id op =
        ((true, some [⟨SamplerTypeTagKey, .str SamplerTypeLowerBound⟩,
                      ⟨SamplerParamTagKey, .num samplingRate⟩]),
         { g with lowerBoundSampler := (g.lowerBoundSampler.IsSampled now id op).2 })) := by
  obtain ⟨hrate, hrange, htags, hptags⟩ := newGuaranteed_ok_fields _ _ _ _ _ hg
  constructor
  · intro h1
    rw [guaranteed_isSampled_eq, if_pos h1]
    rw [show (g.probabilisticSampler.IsSampled id op).2 = g.probabilisticSampler.tags
        from rfl, hptags]
  · intro h1 h2
    rw [guaranteed_isSampled_eq, if_neg (by rw [h1]; exact Bool.false_ne_true), h2, htags]

/-- C1 witness: the protocol at the concrete sampler of
`NewGuaranteedThroughputProbabilisticSampler "op" 0 0` at clock 0, trace id
1: the probabilistic sampler (rate 0, boundary 0) rejects id 1 and the
fresh lower-bound bucket grants its one burst token, so the call answers
`true` with the lowerbound tags. -/
theorem C1_witness :
    probeGuaranteedZero.IsSampled 0 1 "op" =
      ((true, some [⟨SamplerTypeTagKey, .str SamplerTypeLowerBound⟩,
                    ⟨SamplerParamTagKey, .num 0⟩]),
       { probeGuaranteedZero with
          lowerBoundSampler :=
            (probeGuaranteedZero.lowerBoundSampler.IsSampled 0 1 "op").2 }) := by
  refine (C1_guaranteed_two_branch_protocol "op" 0 0 0 probeGuaranteedZero ?_ 0 1 "op").2 ?_ ?_
  · rw [newGuaranteed_ok_of_inRange "op" 0 0 0 le_rfl zero_le_one]
    norm_num [probeGuaranteedZero, NewRateLimitingSampler, NewRateLimiter,
      samplingBoundary, floatMaxRandomNumber]
  · norm_num [probeGuaranteedZero, ProbabilisticSampler.IsSampled]
  · norm_num [probeGuaranteedZero, rateLimitingSampler.IsSampled,
      RateLimiter.CheckCredit]

/-- C7 counterexample: starting from the sampler of
`NewGuaranteedThroughputProbabilisticSampler "op" 0 0` (rate 0, lower bound
0) at clock 0, the first call at trace id 1 drains the single burst token;
on the second call both the probabilistic sampler and the limiter decline,
and the code returns the decision `false` together with the lowerbound tags
of the sampler — not `(false, nil)` as the claim states. -/
theorem C7_counterexample :
    NewGuaranteedThroughputProbabilisticSampler "op" 0 0 0 = .ok probeGuaranteedZero ∧
    ((probeGuaranteedZero.IsSampled 0 1 "op").2.IsSampled 0 1 "op").1 =
      (false, some [⟨SamplerTypeTagKey, .str SamplerTypeLowerBound⟩,
                    ⟨SamplerParamTagKey, .num 0⟩]) ∧
    (false,
      some [(⟨SamplerTypeTagKey, .str SamplerTypeLowerBound⟩ : Tag),
            ⟨SamplerParamTagKey, .num 0⟩]) ≠
      ((false, none) : Bool × Option (List Tag)) := by
  refine ⟨?_, ?_, by simp⟩
  · rw [newGuaranteed_ok_of_inRange "op" 0 0 0 le_rfl zero_le_one]
    norm_num [probeGuaranteedZero, NewRateLimitingSampler, NewRateLimiter,
      samplingBoundary, floatMaxRandomNumber]
  · norm_num [probeGuaranteedZero, GuaranteedThroughputProbabilisticSampler.IsSampled,
      ProbabilisticSampler.IsSampled, rateLimitingSampler.IsSampled,
      RateLimiter.CheckCredit]

/-- C7 amended: when the inner probabilistic sampler rejects the trace id and
the lower-bound limiter declines to grant a token, `IsSampled` returns the
decision `false` together with the sampler's (lowerbound) tags — the Go code
returns `sampled, s.tags`, not `(false, nil)` — and the limiter still steps. -/
theorem C7_amended_both_decline
    (g : GuaranteedThroughputProbabilisticSampler) (now : ℚ) (id : ℕ) (op : String)
    (h1 : (g.probabilisticSampler.IsSampled id op).1 = false)
    (h2 : (g.lowerBoundSampler.IsSampled now id op).1.1 = false) :
    g.IsSampled now id op =
      ((false, some g.tags),
       { g with lowerBoundSampler := (g.lowerBoundSampler.IsSampled now id op).2 }) := by
  rw [guaranteed_isSampled_eq, if_neg (by rw [h1]; exact Bool.false_ne_true), h2]

/-- C7 amended witness: the amended statement at the drained concrete
sampler from the counterexample. -/
theorem C7_amended_witness :
    ((probeGuaranteedZero.IsSampled 0 1 "op").2).IsSampled 0 1 "op" =
      ((false, some ((probeGuaranteedZero.IsSampled 0 1 "op").2).tags),
       { (probeGuaranteedZero.IsSampled 0 1 "op").2 with
          lowerBoundSampler :=
            (((probeGuaranteedZero.IsSampled 0 1 "op").2).lowerBoundSampler.IsSampled
              0 1 "op").2 }) := by
  refine C7_amended_both_decline _ 0 1 "op" ?_ ?_
  · norm_num [probeGuaranteedZero, GuaranteedThroughputProbabilisticSampler.IsSampled,
      ProbabilisticSampler.IsSampled, rateLimitingSampler.IsSampled,
      RateLimiter.CheckCredit]
  · norm_num [probeGuaranteedZero, GuaranteedThroughputProbabilisticSampler.IsSampled,
      ProbabilisticSampler.IsSampled, rateLimitingSampler.IsSampled,
      RateLimiter.CheckCredit]

/-- C3 counterexample: a probabilistic sampler constructed with rate 0 has
`SamplingBoundary = 0`, and at trace id 0 the test `boundary >= id` holds,
so `IsSampled` returns `true` — refuting "rate 0 returns false for every
id in `[0, 2 ^ 63)`" at the concrete id 0. -/
theorem C3_counterexample :
    ((NewProbabilisticSampler 0).map fun s => (s.IsSampled 0 "op").1) = .ok true := by
  rw [newProbabilistic_ok_of_inRange 0 le_rfl zero_le_one]
  simp [ProbabilisticSampler.IsSampled, samplingBoundary_zero, Except.map]

/-- C3 amended: a probabilistic sampler at rate 0 returns `false` for every
trace id in `[1, 2 ^ 63)` (at id 0 it returns `true`), and a sampler at
rate 1 returns `true` for every id in `[0, 2 ^ 63)`. -/
theorem C3_amended_rate_zero_one (s0 s1 : ProbabilisticSampler) (op : String)
    (h0 : NewProbabilisticSampler 0 = .ok s0)
    (h1 : NewProbabilisticSampler 1 = .ok s1)
    (id : ℕ) (hid : id < 2 ^ 63) :
    (1 ≤ id → (s0.IsSampled id op).1 = false) ∧ (s1.IsSampled id op).1 = true := by
  rw [newProbabilistic_ok_of_inRange 0 le_rfl zero_le_one] at h0
  rw [newProbabilistic_ok_of_inRange 1 zero_le_one le_rfl] at h1
  replace h0 := (Except.ok.inj h0).symm
  replace h1 := (Except.ok.inj h1).symm
  subst h0
  subst h1
  constructor
  · intro hge
    simp only [ProbabilisticSampler.IsSampled, samplingBoundary_zero,
      decide_eq_false_iff_not, ge_iff_le]
    omega
  · simp only [ProbabilisticSampler.IsSampled, samplingBoundary_one,
      decide_eq_true_eq, ge_iff_le]
    exact le_of_lt hid

/-- C3 witness: the amended statement at trace id 1 for the concrete rate-0
and rate-1 samplers. -/
theorem C3_witness :
    (({ SamplingBoundary := samplingBoundary 0
        tags := [⟨SamplerTypeTagKey, .str SamplerTypeProbabilistic⟩,
                 ⟨SamplerParamTagKey, .num 0⟩] } : ProbabilisticSampler).IsSampled
        1 "x").1 = false ∧
    (({ SamplingBoundary := samplingBoundary 1
        tags := [⟨SamplerTypeTagKey, .str SamplerTypeProbabilistic⟩,
                 ⟨SamplerParamTagKey, .num 1⟩] } : ProbabilisticSampler).IsSampled
        1 "x").1 = true := by
  have h := C3_amended_rate_zero_one _ _ "x"
    (newProbabilistic_ok_of_inRange 0 le_rfl zero_le_one)
    (newProbabilistic_ok_of_inRange 1 zero_le_one le_rfl) 1 (by norm_num)
  exact ⟨h.1 le_rfl, h.2⟩

/-- C6: `NewProbabilisticSampler rate` returns an error exactly when
`rate < 0` or `rate > 1`, succeeds for every rate in `[0, 1]`, and in
particular fails at rate `-0.01` and at rate `1.01`. -/
theorem C6_construction_range (rate : ℚ) :
    ((∃ e, NewProbabilisticSampler rate = .error e) ↔ (rate < 0 ∨ 1 < rate)) ∧
    (0 ≤ rate → rate ≤ 1 → ∃ s, NewProbabilisticSampler rate = .ok s) ∧
    (∃ e, NewProbabilisticSampler (-0.01 : ℚ) = .error e) ∧
    (∃ e, NewProbabilisticSampler (1.01 : ℚ) = .error e) := by
  have herr : ∀ r : ℚ, r < 0 ∨ 1 < r → ∃ e, NewProbabilisticSampler r = .error e :=
    fun r hr => ⟨_, newProbabilistic_error_of_outRange r hr⟩
  refine ⟨⟨?_, herr rate⟩, ?_, herr _ (by norm_num), herr _ (by norm_num)⟩
  · rintro ⟨e, he⟩
    by_contra hc
    push_neg at hc
    rw [newProbabilistic_ok_of_inRange rate hc.1 hc.2] at he
    exact absurd he (by simp)
  · intro ha hb
    exact ⟨_, newProbabilistic_ok_of_inRange rate ha hb⟩

/-- C6 witness: construction succeeds at the concrete in-range rate `1/2`. -/
theorem C6_witness : ∃ s, NewProbabilisticSampler (1/2 : ℚ) = .ok s :=
  (C6_construction_range (1/2)).2.1 (by norm_num) (by norm_num)

/-- One `adaptiveSampler.IsSampled` call never grows the samplers map beyond
`max` of its current size and `maxOperations`, and never changes the cap. -/
theorem adaptive_isSampled_length_bound (s : adaptiveSampler) (now : ℚ)
    (id : ℕ) (op : String) :
    ((s.IsSampled now id op).2).samplers.length ≤
      max s.samplers.length s.maxOperations ∧
    ((s.IsSampled now id op).2).maxOperations = s.maxOperations := by
  rw [adaptiveSampler.IsSampled]
  rcases hg : lookupOp s.samplers op with _ | g <;> simp only [hg]
  · by_cases hlen : s.samplers.length ≥ s.maxOperations
    · rw [if_pos hlen]
      exact ⟨le_max_left _ _, by trivial⟩
    · rw [if_neg hlen]
      rcases hn : NewGuaranteedThroughputProbabilisticSampler op s.lowerBound
          s.defaultSamplingProbability now with e | g2 <;> simp only [hn]
      · exact ⟨le_max_left _ _, by trivial⟩
      · refine ⟨?_, by trivial⟩
        show (insertOp s.samplers op _).length ≤ _
        rw [length_insertOp_none s.samplers op _ hg]
        exact le_max_of_le_right (Nat.succ_le_of_lt (not_le.mp hlen))
  · refine ⟨?_, by trivial⟩
    show (insertOp s.samplers op _).length ≤ _
    rw [length_insertOp_isSome s.samplers op _ (by rw [hg]; rfl)]
    exact le_max_left _ _

/-- C2 counterexample: `NewAdaptiveSampler` with `maxOperations = 0` and a
single listed operation succeeds and stores that operation's composite, so
the map holds 1 composite — more than the cap of 0.  (The claim's "at most
`maxOperations` at every point" fails already after construction.) -/
theorem C2_counterexample :
    ((NewAdaptiveSampler capStrategies 0 0).map
      fun a => (a.samplers.length, a.maxOperations)) = .ok (1, 0) := by
  rw [NewAdaptiveSampler]
  simp only [capStrategies, buildSamplers,
    newGuaranteed_ok_of_inRange "a" 1 1 0 zero_le_one le_rfl,
    newProbabilistic_ok_of_inRange 1 zero_le_one le_rfl, insertOp]
  rfl

/-- C2 amended: the lazy-create path of `adaptiveSampler.IsSampled` does
respect the cap — any sequence of `IsSampled` calls keeps the samplers map
at no more than `max` of its initial size and `maxOperations` (construction
and `update`, by contrast, insert every listed operation regardless of the
cap, which is what refutes the original claim). -/
theorem C2_amended_isSampled_respects_cap (s : adaptiveSampler)
    (calls : List (ℚ × ℕ × String)) :
    (applyIsSampledCalls s calls).samplers.length ≤
      max s.samplers.length s.maxOperations := by
  induction calls generalizing s with
  | nil => exact le_max_left _ _
  | cons c rest ih =>
    obtain ⟨now, id, op⟩ := c
    rw [applyIsSampledCalls]
    have hstep := adaptive_isSampled_length_bound s now id op
    calc (applyIsSampledCalls ((s.IsSampled now id op).2) rest).samplers.length
        ≤ max ((s.IsSampled now id op).2).samplers.length
            ((s.IsSampled now id op).2).maxOperations := ih _
      _ ≤ max (max s.samplers.length s.maxOperations) s.maxOperations := by
          rw [hstep.2]
          exact max_le_max hstep.1 le_rfl
      _ = max s.samplers.length s.maxOperations := by
          rw [max_assoc, max_self]

/-- C5: the dispatch of `adaptiveSampler.IsSampled`: a present operation is
delegated to its composite (whose post-call state is stored back); an absent
operation at or above the cap goes to the default sampler with no state
change; an absent operation below the cap (with the stored default
probability in range, as construction and update guarantee) gets a fresh
composite at `(lowerBound, defaultSamplingProbability)` which is stored and
delegated to; and with `maxOperations = 0` (hence an empty map, as only
`IsSampled` grows it from empty) every operation goes to the default
sampler. -/
theorem C5_adaptive_dispatch (s : adaptiveSampler) (now : ℚ) (id : ℕ)
    (op : String) :
    (∀ g, lookupOp s.samplers op = some g →
       s.IsSampled now id op =
         ((g.IsSampled now id op).1,
          { s with samplers := insertOp s.samplers op ((g.IsSampled now id op).2) })) ∧
    (lookupOp s.samplers op = none → s.maxOperations ≤ s.samplers.length →
       s.IsSampled now id op =
         (((s.defaultSampler.IsSampled id op).1,
           some ((s.defaultSampler.IsSampled id op).2)), s)) ∧
    (lookupOp s.samplers op = none → s.samplers.length < s.maxOperations →
       0 ≤ s.defaultSamplingProbability → s.defaultSamplingProbability ≤ 1 →
       ∃ g, NewGuaranteedThroughputProbabilisticSampler op s.lowerBound
              s.defaultSamplingProbability now = .ok g ∧
         s.IsSampled now id op =
           ((g.IsSampled now id op).1,
            { s with samplers := insertOp s.samplers op ((g.IsSampled now id op).2) })) ∧
    (s.maxOperations = 0 → s.samplers = [] →
       s.IsSampled now id op =
         (((s.defaultSampler.IsSampled id op).1,
           some ((s.defaultSampler.IsSampled id op).2)), s)) := by
  refine ⟨?_, ?_, ?_, ?_⟩
  · intro g hg
    rw [adaptiveSampler.IsSampled]
    simp only [hg]
  · intro hnone hlen
    rw [adaptiveSampler.IsSampled]
    simp only [hnone]
    rw [if_pos hlen]
  · intro hnone hlen h0 h1
    rw [adaptiveSampler.IsSampled]
    simp only [hnone]
    rw [if_neg (not_le.mpr hlen),
      newGuaranteed_ok_of_inRange op s.lowerBound s.defaultSamplingProbability now h0 h1]
    exact ⟨_, rfl, rfl⟩
  · intro hmax hempty
    rw [adaptiveSampler.IsSampled]
    simp only [hempty, lookupOp]
    rw [if_pos (by rw [hmax]; exact Nat.zero_le _)]

/-- C5 witness: the empty adaptive sampler with `maxOperations = 0` routes
the (absent) operation `"x"` to its default sampler and is left unchanged. -/
theorem C5_witness :
    probeAdaptiveEmpty.IsSampled 0 5 "x" =
      (((probeAdaptiveEmpty.defaultSampler.IsSampled 5 "x").1,
        some ((probeAdaptiveEmpty.defaultSampler.IsSampled 5 "x").2)),
       probeAdaptiveEmpty) :=
  (C5_adaptive_dispatch probeAdaptiveEmpty 0 5 "x").2.2.2 rfl rfl

/-- C4: after a successful `adaptiveSampler.update strategies` (with
pairwise-distinct listed operation names): every listed operation has a
composite whose probabilistic rate equals that operation's strategy rate;
`lowerBound` equals `strategies.DefaultLowerBoundTracesPerSecond`;
`defaultSamplingProbability` is refreshed, the default sampler is kept
if the default probability did not change and is rebuilt from it if it did;
and no operation present before the update has been removed. -/
theorem C4_update_success (s : adaptiveSampler)
    (strategies : PerOperationSamplingStrategies) (now : ℚ)
    (s1 : adaptiveSampler)
    (hnd : (strategies.PerOperationStrategies.map (·.Operation)).Nodup)
    (h : s.update strategies now = (s1, none)) :
    (∀ e ∈ strategies.PerOperationStrategies,
       ∃ g, lookupOp s1.samplers e.Operation = some g ∧
         g.samplingRate = e.ProbabilisticSampling.SamplingRate) ∧
    s1.lowerBound = strategies.DefaultLowerBoundTracesPerSecond ∧
    s1.defaultSamplingProbability = strategies.DefaultSamplingProbability ∧
    (s.defaultSamplingProbability = strategies.DefaultSamplingProbability →
       s1.defaultSampler = s.defaultSampler) ∧
    (s.defaultSamplingProbability ≠ strategies.DefaultSamplingProbability →
       NewProbabilisticSampler strategies.DefaultSamplingProbability =
         .ok s1.defaultSampler) ∧
    (∀ op, (lookupOp s.samplers op).isSome → (lookupOp s1.samplers op).isSome) := by
  rw [adaptiveSampler.update] at h
  rcases hloop : updateSamplersLoop strategies.DefaultLowerBoundTracesPerSecond now
      strategies.PerOperationStrategies s.samplers with ⟨m, err⟩
  rcases err with _ | e
  · simp only [hloop] at h
    have hent := updateSamplersLoop_ok_entries _ now
      strategies.PerOperationStrategies s.samplers m hnd hloop
    have hpres := updateSamplersLoop_preserves_isSome _ now
      strategies.PerOperationStrategies s.samplers m none hloop
    by_cases hc : s.defaultSamplingProbability = strategies.DefaultSamplingProbability
    · rw [if_neg (by simpa using hc)] at h
      replace h := ((Prod.mk.inj h).1).symm
      subst h
      exact ⟨hent, rfl, hc, fun _ => rfl, fun hne => absurd hc hne, hpres⟩
    · rw [if_pos (by simpa using hc)] at h
      rcases hd : NewProbabilisticSampler strategies.DefaultSamplingProbability
          with e2 | d <;> simp only [hd] at h
      · exact absurd ((Prod.mk.inj h).2) (by simp)
      · replace h := ((Prod.mk.inj h).1).symm
        subst h
        exact ⟨hent, rfl, rfl, fun hcc => absurd hcc hc, fun _ => rfl, hpres⟩
  · simp only [hloop] at h
    exact absurd ((Prod.mk.inj h).2) (by simp)

/-- C4 witness: updating the fresh adaptive sampler with the one-operation
strategy list succeeds, stores a rate-1 composite for `"a"`, refreshes the
lower bound, and keeps the default sampler (the default rate is unchanged). -/
theorem C4_witness :
    (∀ e ∈ reconcileStrategies.PerOperationStrategies,
       ∃ g, lookupOp reconcileAfter.samplers e.Operation = some g ∧
         g.samplingRate = e.ProbabilisticSampling.SamplingRate) ∧
    reconcileAfter.lowerBound = reconcileStrategies.DefaultLowerBoundTracesPerSecond ∧
    reconcileAfter.defaultSamplingProbability =
      reconcileStrategies.DefaultSamplingProbability ∧
    (reconcileBase.defaultSamplingProbability =
       reconcileStrategies.DefaultSamplingProbability →
       reconcileAfter.defaultSampler = reconcileBase.defaultSampler) ∧
    (reconcileBase.defaultSamplingProbability ≠
       reconcileStrategies.DefaultSamplingProbability →
       NewProbabilisticSampler reconcileStrategies.DefaultSamplingProbability =
         .ok reconcileAfter.defaultSampler) ∧
    (∀ op, (lookupOp reconcileBase.samplers op).isSome →
       (lookupOp reconcileAfter.samplers op).isSome) := by
  refine C4_update_success reconcileBase reconcileStrategies 0 reconcileAfter
    (by simp [reconcileStrategies]) ?_
  rw [adaptiveSampler.update]
  simp only [reconcileStrategies, reconcileBase, updateSamplersLoop, updateOneStrategy,
    lookupOp, newGuaranteed_ok_of_inRange "a" 1 1 0 zero_le_one le_rfl, insertOp]
  norm_num [reconcileAfter, reconcileBase]

/-- C8: when `adaptiveSampler.update` meets an out-of-range per-operation
rate after a prefix of valid entries, it stops with an error, the updates
and insertions performed for the prefix remain in effect (the result state
carries exactly the map the prefix produced), `lowerBound`, the default
sampler and the default probability keep their pre-call values, and the
controller's `lockAndUpdateSampler` swallows the error, counts one
`SamplerUpdateFailure`, and keeps the partially updated adaptive sampler
active. -/
theorem C8_interrupted_update_effects (s : adaptiveSampler)
    (strategies : PerOperationSamplingStrategies) (now : ℚ)
    (pre rest : List OperationSamplingStrategy) (bad : OperationSamplingStrategy)
    (hms : ∀ p ∈ s.samplers, rateInRange p.2.samplingRate)
    (hpre : ∀ e ∈ pre, rateInRange e.ProbabilisticSampling.SamplingRate)
    (hbad : bad.ProbabilisticSampling.SamplingRate < 0 ∨
            1 < bad.ProbabilisticSampling.SamplingRate)
    (hlist : strategies.PerOperationStrategies = pre ++ bad :: rest) :
    ∃ m1, updateSamplersLoop strategies.DefaultLowerBoundTracesPerSecond now pre
            s.samplers = (m1, none) ∧
      s.update strategies now =
        ({ s with samplers := m1 },
         some "Sampling Rate must be between 0.0 and 1.0") ∧
      ∀ met : Metrics, ∀ maxOps : ℕ, ∀ upd : Sampler,
        RemotelyControlledSampler.lockAndUpdateSampler
            ⟨.adaptive s, met, maxOps⟩ upd (some strategies) now =
          some ⟨.adaptive { s with samplers := m1 },
                { met with SamplerUpdateFailure := met.SamplerUpdateFailure + 1 },
                maxOps⟩ := by
  obtain ⟨m1, hm1, hinv⟩ := updateSamplersLoop_inRange_ok
    strategies.DefaultLowerBoundTracesPerSecond now pre s.samplers hms hpre
  have hbadstep := updateOne_error_of_outRange
    strategies.DefaultLowerBoundTracesPerSecond now m1 bad hinv hbad
  have hfull : updateSamplersLoop strategies.DefaultLowerBoundTracesPerSecond now
      (pre ++ bad :: rest) s.samplers =
        (m1, some "Sampling Rate must be between 0.0 and 1.0") := by
    rw [updateSamplersLoop_append _ now pre (bad :: rest) s.samplers m1 hm1]
    simp only [updateSamplersLoop, hbadstep]
  have hupd : s.update strategies now =
      ({ s with samplers := m1 },
       some "Sampling Rate must be between 0.0 and 1.0") := by
    rw [adaptiveSampler.update, hlist, hfull]
  refine ⟨m1, hm1, hupd, fun met maxOps upd => ?_⟩
  rw [RemotelyControlledSampler.lockAndUpdateSampler]
  simp only [hupd]

/-- C8 witness: the partial-update behaviour at the concrete empty adaptive
sampler and the strategy list whose only entry has the invalid rate 2. -/
theorem C8_witness :
    ∃ m1, updateSamplersLoop stopStrategies.DefaultLowerBoundTracesPerSecond 0 []
            stopBase.samplers = (m1, none) ∧
      stopBase.update stopStrategies 0 =
        ({ stopBase with samplers := m1 },
         some "Sampling Rate must be between 0.0 and 1.0") ∧
      ∀ met : Metrics, ∀ maxOps : ℕ, ∀ upd : Sampler,
        RemotelyControlledSampler.lockAndUpdateSampler
            ⟨.adaptive stopBase, met, maxOps⟩ upd (some stopStrategies) 0 =
          some ⟨.adaptive { stopBase with samplers := m1 },
                { met with SamplerUpdateFailure := met.SamplerUpdateFailure + 1 },
                maxOps⟩ :=
  C8_interrupted_update_effects stopBase stopStrategies 0 [] [] ⟨"b", ⟨2⟩⟩
    (by simp [stopBase]) (by simp) (by norm_num) rfl

/-- C9: for the non-adaptive variants, if the controller's active sampler
came from extracting a response `R` (whose per-operation field is absent),
then processing `R` again extracts a candidate that the active sampler's
`Equal` accepts, so only `SamplerRetrieved` is incremented: the active
sampler, `SamplerUpdated` and all other counters are unchanged and
`lockAndUpdateSampler` is never reached. -/
theorem C9_reapply_same_response_no_update (st s0 : RemotelyControlledSampler)
    (res : SamplingStrategyResponse) (now1 now2 : ℚ)
    (cand : Sampler) (strat : Option PerOperationSamplingStrategies)
    (hop : res.OperationSampling = none)
    (hfirst : s0.extractSampler res now1 = .ok (cand, strat))
    (hact : st.sampler = cand) :
    st.updateSampler res now2 =
      some { st with metrics :=
        { st.metrics with SamplerRetrieved := st.metrics.SamplerRetrieved + 1 } } := by
  rw [RemotelyControlledSampler.extractSampler] at hfirst
  simp only [hop] at hfirst
  rw [RemotelyControlledSampler.updateSampler, RemotelyControlledSampler.extractSampler]
  simp only [hop]
  rcases hpp : res.ProbabilisticSampling with _ | pr <;> simp only [hpp] at hfirst ⊢
  · rcases hrl : res.RateLimitingSampling with _ | rl <;> simp only [hrl] at hfirst ⊢
    · exact absurd hfirst (by simp)
    · replace hfirst := Except.ok.inj hfirst
      have hcand := (Prod.mk.inj hfirst).1
      rw [hact, ← hcand]
      simp [Sampler.Equal, NewRateLimitingSampler]
  · rcases hq : NewProbabilisticSampler pr.SamplingRate with e | q <;>
      simp only [hq] at hfirst ⊢
    · exact absurd hfirst (by simp)
    · replace hfirst := Except.ok.inj hfirst
      have hcand := (Prod.mk.inj hfirst).1
      rw [hact, ← hcand]
      simp [Sampler.Equal]

/-- C9 witness: re-applying the concrete rate-1 probabilistic response to the
controller whose active sampler it produced increments only
`SamplerRetrieved`. -/
theorem C9_witness :
    pollController.updateSampler pollResponse 1 =
      some { pollController with metrics :=
        { pollController.metrics with
            SamplerRetrieved := pollController.metrics.SamplerRetrieved + 1 } } := by
  refine C9_reapply_same_response_no_update pollController pollController pollResponse
    0 1 (.probabilistic
      { SamplingBoundary := samplingBoundary 1
        tags := [⟨SamplerTypeTagKey, .str SamplerTypeProbabilistic⟩,
                 ⟨SamplerParamTagKey, .num 1⟩] }) none rfl ?_ rfl
  rw [RemotelyControlledSampler.extractSampler]
  simp only [pollResponse, newProbabilistic_ok_of_inRange 1 zero_le_one le_rfl]

/-- C10: the stored default sampling probability of an adaptive sampler is
in `[0, 1]` after construction and stays there across every `update` (also
failed ones); consequently, whenever it is in range, the lazy-create branch
of `IsSampled` cannot fail: the composite constructor succeeds and
`IsSampled` never returns the error branch's `(false, nil)` — its tags are
never `nil`. -/
theorem C10_default_probability_safe :
    (∀ strategies maxOps now a, NewAdaptiveSampler strategies maxOps now = .ok a →
       0 ≤ a.defaultSamplingProbability ∧ a.defaultSamplingProbability ≤ 1) ∧
    (∀ s : adaptiveSampler, ∀ strategies now,
       0 ≤ s.defaultSamplingProbability → s.defaultSamplingProbability ≤ 1 →
       0 ≤ ((s.update strategies now).1).defaultSamplingProbability ∧
         ((s.update strategies now).1).defaultSamplingProbability ≤ 1) ∧
    (∀ s : adaptiveSampler, ∀ now, ∀ id : ℕ, ∀ op,
       0 ≤ s.defaultSamplingProbability → s.defaultSamplingProbability ≤ 1 →
       (∃ g, NewGuaranteedThroughputProbabilisticSampler op s.lowerBound
               s.defaultSamplingProbability now = .ok g) ∧
         (s.IsSampled now id op).1.2 ≠ none) := by
  refine ⟨?_, ?_, ?_⟩
  · intro strategies maxOps now a h
    rw [NewAdaptiveSampler] at h
    rcases hb : buildSamplers strategies.DefaultLowerBoundTracesPerSecond now
        strategies.PerOperationStrategies [] with e | m <;> simp only [hb] at h
    · exact absurd h (by simp)
    · rcases hd : NewProbabilisticSampler strategies.DefaultSamplingProbability
          with e | d <;> simp only [hd] at h
      · exact absurd h (by simp)
      · replace h := (Except.ok.inj h).symm
        subst h
        exact newProbabilistic_ok_inRange _ d hd
  · intro s strategies now h0 h1
    rw [adaptiveSampler.update]
    rcases hloop : updateSamplersLoop strategies.DefaultLowerBoundTracesPerSecond now
        strategies.PerOperationStrategies s.samplers with ⟨m, err⟩
    rcases err with _ | e
    · dsimp only
      by_cases hc : s.defaultSamplingProbability = strategies.DefaultSamplingProbability
      · rw [if_neg (by simpa using hc)]
        exact ⟨h0, h1⟩
      · rw [if_pos (by simpa using hc)]
        rcases hd : NewProbabilisticSampler strategies.DefaultSamplingProbability
            with e2 | d <;> simp only [hd]
        · exact ⟨h0, h1⟩
        · exact newProbabilistic_ok_inRange _ d hd
    · exact ⟨h0, h1⟩
  · intro s now id op h0 h1
    refine ⟨⟨_, newGuaranteed_ok_of_inRange op s.lowerBound
      s.defaultSamplingProbability now h0 h1⟩, ?_⟩
    rw [adaptiveSampler.IsSampled]
    rcases hg : lookupOp s.samplers op with _ | g <;> simp only [hg]
    · by_cases hlen : s.samplers.length ≥ s.maxOperations
      · rw [if_pos hlen]
        simp
      · rw [if_neg hlen,
          newGuaranteed_ok_of_inRange op s.lowerBound s.defaultSamplingProbability now h0 h1]
        exact guaranteed_isSampled_tags_ne_none _ now id op
    · exact guaranteed_isSampled_tags_ne_none g now id op

/-- C10 witness: at the concrete adaptive sampler with default probability
`1/2`, the lazy-create constructor succeeds and the call's tags are not
`nil`. -/
theorem C10_witness :
    (∃ g, NewGuaranteedThroughputProbabilisticSampler "y" safeAdaptive.lowerBound
            safeAdaptive.defaultSamplingProbability 3 = .ok g) ∧
    (safeAdaptive.IsSampled 3 9 "y").1.2 ≠ none :=
  (C10_default_probability_safe).2.2 safeAdaptive 3 9 "y"
    (by norm_num [safeAdaptive]) (by norm_num [safeAdaptive])

end JaegerSampler
